import Mathlib

/-!
# Canvas interaction engine: shallow embedding

A shallow embedding of the canvas document editor's interaction engine
(the `Editor` component: tool state machine, pointer handlers, resize
calculator, geometry helpers), over exact rational arithmetic in place of
JS numbers.  DOM-sourced measurements (container origin, content scroll
height, event target classification) are passed as explicit parameters.
State updates that the host applies asynchronously but without further
input (queued `setState` calls and the 50 ms selection timeout) are folded
into the handler's resulting state.
-/

namespace DocEditor

/-- `ElementType` enum from `types.ts`. -/
inductive ElementType where
  | TEXT
  | RECTANGLE
  | CIRCLE
  | PATH
  | IMAGE
  | CODE
  | EXPANDABLE
deriving DecidableEq, Repr

/-- A point `{x, y}` (canvas space unless stated otherwise). -/
structure Point where
  x : ℚ
  y : ℚ
deriving DecidableEq, Repr

/-- The optional `style` record on an element. -/
structure ElementStyle where
  strokeColor : Option String := none
  backgroundColor : Option String := none
  strokeWidth : Option ℚ := none
  fontSize : Option ℚ := none
deriving DecidableEq, Repr

/-- `CanvasElement` from `types.ts`: one record type with optional fields
over all variants. -/
structure CanvasElement where
  id : String
  type : ElementType
  x : ℚ
  y : ℚ
  width : Option ℚ := none
  height : Option ℚ := none
  content : Option String := none
  points : Option (List Point) := none
  style : Option ElementStyle := none
  isExpanded : Option Bool := none
deriving DecidableEq, Repr

/-- The `Tool` union type of the editor. -/
inductive Tool where
  | SELECT
  | TEXT
  | RECT
  | CIRCLE
  | DRAW
  | CODE
  | EXPANDABLE
  | ERASER
deriving DecidableEq, Repr

/-- The `InteractionMode` union type of the editor. -/
inductive InteractionMode where
  | IDLE
  | CREATING
  | MOVING
  | BOX_SELECT
  | ERASING
  | RESIZING
deriving DecidableEq, Repr

/-- An `{x, y, width, height}` rectangle (used for `initialBounds` and the
selection box). -/
structure Bounds where
  x : ℚ
  y : ℚ
  width : ℚ
  height : ℚ
deriving DecidableEq, Repr

/-- The `interactionRef.current` record: the single live interaction
session.  `initialPositions` (a JS object keyed by id) is modelled as an
association list. -/
structure InteractionSession where
  startX : ℚ := 0
  startY : ℚ := 0
  currentId : Option String := none
  mode : InteractionMode := InteractionMode.IDLE
  initialPositions : List (String × Point) := []
  resizeHandle : List Char := []
  initialBounds : Bounds := ⟨0, 0, 0, 0⟩
deriving DecidableEq, Repr

/-- The `slashMenu` state value `{x, y, targetId}`. -/
structure SlashMenuState where
  x : ℚ
  y : ℚ
  targetId : String
deriving DecidableEq, Repr

/-- The mutable state of the `Editor` component that the interaction
engine reads and writes. -/
structure EditorState where
  elements : List CanvasElement
  tool : Tool
  activeColor : String
  scale : ℚ
  selectedIds : Finset String
  slashMenu : Option SlashMenuState
  selectionBox : Option Bounds
  interaction : InteractionSession
deriving DecidableEq

/-- `getMousePos`: screen-to-canvas conversion.
`(e.clientX - rect.left) / scale`, `(e.clientY - rect.top) / scale`. -/
def getMousePos (clientX clientY rectLeft rectTop scale : ℚ) : Point :=
  ⟨(clientX - rectLeft) / scale, (clientY - rectTop) / scale⟩

/-- The spec-side contract `toCanvas(screenPoint, containerOrigin, scale)`,
written from the spec's words (for comparison against `getMousePos`):
`(screenX - containerOrigin.x) / scale, (screenY - containerOrigin.y) / scale`. -/
def toCanvasSpec (screenX screenY originX originY scale : ℚ) : Point :=
  ⟨(screenX - originX) / scale, (screenY - originY) / scale⟩

/-- `deleteElement`: filter the element out of the collection and erase
its id from the selection set. -/
def deleteElement (id : String) (st : EditorState) : EditorState :=
  { st with
    elements := st.elements.filter (fun el => el.id ≠ id),
    selectedIds := st.selectedIds.erase id }

/-- The Escape branch of `handleKeyDown`:
`setTool('SELECT'); setSelectedIds(new Set()); setSlashMenu(null);`.
Nothing else is touched (in particular `interactionRef.current` is not). -/
def handleKeyDownEscape (st : EditorState) : EditorState :=
  { st with
    tool := Tool.SELECT,
    selectedIds := ∅,
    slashMenu := none }

/-- JS truthiness of an optional numeric field (`el.width && el.height`):
`undefined` and `0` are falsy. -/
def truthy (o : Option ℚ) : Bool :=
  match o with
  | none => false
  | some v => v ≠ 0

/-- `el.width || 10` in the box-select hit test: fall back to `10` when
the field is `undefined` or `0`. -/
def boxSelectFallback (o : Option ℚ) : ℚ :=
  match o with
  | none => 10
  | some v => if v = 0 then 10 else v

/-- The box-select overlap test from `handleContainerPointerUp`:
`elX < sb.x + sb.width && elX + elW > sb.x && elY < sb.y + sb.height && elY + elH > sb.y`. -/
def boxHit (sb : Bounds) (el : CanvasElement) : Bool :=
  let elX := el.x
  let elY := el.y
  let elW := boxSelectFallback el.width
  let elH := boxSelectFallback el.height
  decide (elX < sb.x + sb.width ∧ elX + elW > sb.x ∧
          elY < sb.y + sb.height ∧ elY + elH > sb.y)

/-- The path branch of the eraser hit test: bounding box of all points,
offset by the element origin, containment check.  `Math.min(...[])` of an
empty spread is `Infinity`, so an empty point list hits nothing. -/
def pathBBoxHit (x y ox oy : ℚ) (ps : List Point) : Bool :=
  match ps with
  | [] => false
  | p :: rest =>
    let minX := (rest.map Point.x).foldl min p.x + ox
    let maxX := (rest.map Point.x).foldl max p.x + ox
    let minY := (rest.map Point.y).foldl min p.y + oy
    let maxY := (rest.map Point.y).foldl max p.y + oy
    decide (minX ≤ x ∧ x ≤ maxX ∧ minY ≤ y ∧ y ≤ maxY)

/-- The eraser hit test from the ERASING branch of
`handleContainerPointerMove`, with the JS branch order:
explicit (truthy) width/height box, then path bounding box, then the
fixed 300×50 fallback for TEXT, else no hit region. -/
def eraserHit (x y : ℚ) (el : CanvasElement) : Bool :=
  if truthy el.width && truthy el.height then
    decide (el.x ≤ x ∧ x ≤ el.x + el.width.getD 0 ∧
            el.y ≤ y ∧ y ≤ el.y + el.height.getD 0)
  else if el.type = ElementType.PATH ∧ el.points.isSome then
    pathBBoxHit x y el.x el.y (el.points.getD [])
  else if el.type = ElementType.TEXT then
    decide (el.x ≤ x ∧ x ≤ el.x + 300 ∧ el.y ≤ y ∧ y ≤ el.y + 50)
  else false

/-- The per-element update of the CREATING branch of
`handleContainerPointerMove`: append the point for paths; otherwise set
`width = |x - startX|`, `height = |y - startY|`,
`x = width < 0 ? x : startX`, `y = height < 0 ? y : startY`. -/
def creatingUpdate (startX startY x y : ℚ) (el : CanvasElement) : CanvasElement :=
  if el.type = ElementType.PATH then
    { el with points := some (el.points.getD [] ++ [⟨x, y⟩]) }
  else
    let width := x - startX
    let height := y - startY
    { el with
      width := some |width|,
      height := some |height|,
      x := if width < 0 then x else startX,
      y := if height < 0 then y else startY }

/-- `handleContainerPointerMove`: dispatch on the live session's mode.
The container origin `(rectLeft, rectTop)` and raw pointer
`(clientX, clientY)` are parameters; the canvas point comes from
`getMousePos`. -/
def handleContainerPointerMove (rectLeft rectTop clientX clientY : ℚ)
    (st : EditorState) : EditorState :=
  let p := getMousePos clientX clientY rectLeft rectTop st.scale
  match st.interaction.mode with
  | InteractionMode.CREATING =>
    { st with
      elements := st.elements.map fun el =>
        if some el.id = st.interaction.currentId then
          creatingUpdate st.interaction.startX st.interaction.startY p.x p.y el
        else el }
  | InteractionMode.BOX_SELECT =>
    let w := p.x - st.interaction.startX
    let h := p.y - st.interaction.startY
    { st with
      selectionBox := some
        ⟨if w < 0 then p.x else st.interaction.startX,
         if h < 0 then p.y else st.interaction.startY,
         |w|, |h|⟩ }
  | InteractionMode.ERASING =>
    match st.elements.find? (fun el => eraserHit p.x p.y el) with
    | some hit => deleteElement hit.id st
    | none => st
  | _ => st

/-- `handleContainerPointerUp`: resolve box-select hits into the selection
(set union via repeated `add`), clear the box, and return to IDLE. -/
def handleContainerPointerUp (st : EditorState) : EditorState :=
  let st :=
    if st.interaction.mode = InteractionMode.BOX_SELECT then
      match st.selectionBox with
      | some sb =>
        let hits := st.elements.filter (fun el => boxHit sb el)
        { st with
          selectedIds := hits.foldl (fun s h => insert h.id s) st.selectedIds,
          selectionBox := none }
      | none => st
    else st
  { st with interaction := { st.interaction with mode := InteractionMode.IDLE } }

/-- `handleContainerPointerDown`.  Event facts that come from the DOM are
parameters: `button`, whether the target is the canvas background, whether
it is contentEditable, and the shift modifier.  `newId` stands for the
`generateId()` result.  The 50 ms timeout that selects the freshly placed
TEXT/CODE/EXPANDABLE element is folded into the resulting state. -/
def handleContainerPointerDown (button : ℕ)
    (targetIsBackground targetIsContentEditable shiftKey : Bool)
    (rectLeft rectTop clientX clientY : ℚ) (newId : String)
    (st : EditorState) : EditorState :=
  if st.tool ≠ Tool.SELECT ∧ st.tool ≠ Tool.ERASER ∧ button ≠ 0 then st
  else
    let p := getMousePos clientX clientY rectLeft rectTop st.scale
    if st.tool = Tool.SELECT then
      if targetIsBackground then
        { st with
          interaction :=
            { startX := p.x, startY := p.y, currentId := none,
              mode := InteractionMode.BOX_SELECT, initialPositions := [],
              resizeHandle := [], initialBounds := ⟨0, 0, 0, 0⟩ },
          selectionBox := some ⟨p.x, p.y, 0, 0⟩,
          selectedIds := if shiftKey then st.selectedIds else ∅,
          slashMenu := none }
      else st
    else if st.tool = Tool.ERASER then
      { st with
        interaction :=
          { startX := p.x, startY := p.y, currentId := none,
            mode := InteractionMode.ERASING, initialPositions := [],
            resizeHandle := [], initialBounds := ⟨0, 0, 0, 0⟩ } }
    else if st.tool = Tool.TEXT ∧ targetIsContentEditable then st
    else
      let isDragCreation :=
        st.tool = Tool.RECT ∨ st.tool = Tool.CIRCLE ∨ st.tool = Tool.DRAW
      let st' : EditorState :=
        { st with
          interaction :=
            { startX := p.x, startY := p.y, currentId := some newId,
              mode := if isDragCreation then InteractionMode.CREATING
                      else InteractionMode.IDLE,
              initialPositions := [], resizeHandle := [],
              initialBounds := ⟨0, 0, 0, 0⟩ } }
      if st.tool = Tool.TEXT ∨ st.tool = Tool.CODE ∨ st.tool = Tool.EXPANDABLE then
        let newEl : CanvasElement :=
          if st.tool = Tool.CODE then
            { id := newId, type := ElementType.CODE, x := p.x, y := p.y,
              content := some "// Code block", width := some 300, height := some 150 }
          else if st.tool = Tool.EXPANDABLE then
            { id := newId, type := ElementType.EXPANDABLE, x := p.x, y := p.y,
              content := some "Toggle Section", isExpanded := some true,
              width := some 300 }
          else
            { id := newId, type := ElementType.TEXT, x := p.x, y := p.y,
              content := some "", width := some 400 }
        { st' with
          elements := st'.elements ++ [newEl],
          selectedIds := {newId} }
      else
        let newEl : CanvasElement :=
          if st.tool = Tool.DRAW then
            { id := newId, type := ElementType.PATH, x := 0, y := 0,
              points := some [⟨p.x, p.y⟩],
              style := some { strokeColor := some st.activeColor,
                              strokeWidth := some 2 } }
          else
            { id := newId,
              type := if st.tool = Tool.RECT then ElementType.RECTANGLE
                      else ElementType.CIRCLE,
              x := p.x, y := p.y, width := some 0, height := some 0,
              style := some { strokeColor := some st.activeColor,
                              backgroundColor := some "transparent",
                              strokeWidth := some 2 } }
        { st' with elements := st'.elements ++ [newEl] }

/-- The minimum-height computation of the RESIZING branch: `minH = 20`,
except for TEXT elements whose rendered `[contenteditable]` content node
exists, where `minH = contentNode.scrollHeight + 16` (padding buffer).
The DOM measurement is the `contentScrollHeight` parameter (`none` when
the element ref or content node is absent). -/
def computeMinH (el : CanvasElement) (contentScrollHeight : Option ℚ) : ℚ :=
  if el.type = ElementType.TEXT then
    match contentScrollHeight with
    | some sh => sh + 16
    | none => 20
  else 20

/-- The resize calculator of the RESIZING branch of `handleGlobalMove`:
per-letter edge adjustment with a fixed 20-unit minimum width and the
`minH` minimum height. -/
def resizeBounds (resizeHandle : List Char) (b : Bounds) (dx dy minH : ℚ) : Bounds :=
  let newX := b.x
  let newY := b.y
  let newW := b.width
  let newH := b.height
  let newW := if resizeHandle.contains 'e' then max 20 (b.width + dx) else newW
  let wPair :=
    if resizeHandle.contains 'w' then
      let maxDelta := b.width - 20
      let effDx := min dx maxDelta
      (b.width - effDx, b.x + effDx)
    else (newW, newX)
  let newW := wPair.1
  let newX := wPair.2
  let newH := if resizeHandle.contains 's' then max minH (b.height + dy) else newH
  let hPair :=
    if resizeHandle.contains 'n' then
      let maxDelta := b.height - minH
      let effDy := min dy maxDelta
      (b.height - effDy, b.y + effDy)
    else (newH, newY)
  ⟨newX, hPair.2, newW, hPair.1⟩

/-- `handleGlobalMove`: window-level pointer-move handling for the MOVING
and RESIZING modes.  `startX`/`startY` of the session are raw `clientX`/
`clientY` values captured at gesture start; the delta is divided by the
current scale.  `contentScrollHeight` supplies the DOM content-height
measurement per element id. -/
def handleGlobalMove (contentScrollHeight : String → Option ℚ)
    (clientX clientY : ℚ) (st : EditorState) : EditorState :=
  if st.interaction.mode = InteractionMode.IDLE then st
  else
    match st.interaction.mode, st.interaction.currentId with
    | InteractionMode.MOVING, _ =>
      let dx := (clientX - st.interaction.startX) / st.scale
      let dy := (clientY - st.interaction.startY) / st.scale
      { st with
        elements := st.elements.map fun el =>
          match st.interaction.initialPositions.lookup el.id with
          | some init => { el with x := init.x + dx, y := init.y + dy }
          | none => el }
    | InteractionMode.RESIZING, some cid =>
      let dx := (clientX - st.interaction.startX) / st.scale
      let dy := (clientY - st.interaction.startY) / st.scale
      { st with
        elements := st.elements.map fun el =>
          if el.id = cid then
            let minH := computeMinH el (contentScrollHeight el.id)
            let b := resizeBounds st.interaction.resizeHandle
              st.interaction.initialBounds dx dy minH
            { el with x := b.x, y := b.y,
                      width := some b.width, height := some b.height }
          else el }
    | _, _ => st

/-- `handleGlobalUp`: clear the selection box when in BOX_SELECT, then set
the session mode to IDLE. -/
def handleGlobalUp (st : EditorState) : EditorState :=
  let st :=
    if st.interaction.mode = InteractionMode.BOX_SELECT then
      { st with selectionBox := none }
    else st
  { st with interaction := { st.interaction with mode := InteractionMode.IDLE } }

/-- `handleElementPointerDown`.  `selectedIdsRef.current` still holds the
pre-event selection inside the handler (the ref is synced in an effect
after the `setSelectedIds` call lands), so the MOVING snapshot is computed
from the selection as it was when the event fired. -/
def handleElementPointerDown (shiftKey targetIsInput targetHasDragHandle : Bool)
    (clientX clientY : ℚ) (id : String) (st : EditorState) : EditorState :=
  if st.tool = Tool.ERASER then deleteElement id st
  else if st.tool = Tool.SELECT then
    let prevSelected := st.selectedIds
    let element := st.elements.find? (fun el => el.id = id)
    let st :=
      match element with
      | some el =>
        match el.style with
        | some sty =>
          match sty.strokeColor with
          | some c => { st with activeColor := c }
          | none => st
        | none => st
      | none => st
    let st :=
      if shiftKey then
        { st with
          selectedIds :=
            if id ∈ prevSelected then prevSelected.erase id
            else insert id prevSelected }
      else if id ∉ prevSelected then { st with selectedIds := {id} }
      else st
    if targetHasDragHandle ∨ ¬targetIsInput then
      let currentSelection : Finset String :=
        if shiftKey then prevSelected
        else if id ∈ prevSelected then prevSelected else {id}
      let initPos :=
        (st.elements.filter (fun el => el.id ∈ currentSelection)).map
          fun el => (el.id, Point.mk el.x el.y)
      { st with
        interaction :=
          { startX := clientX, startY := clientY, currentId := some id,
            mode := InteractionMode.MOVING, initialPositions := initPos,
            resizeHandle := [], initialBounds := ⟨0, 0, 0, 0⟩ } }
    else st
  else st

/-- A freshly created rectangle anchored at canvas (50,50), for the
creation-drag demo. -/
def demoRect : CanvasElement :=
  { id := "r1", type := ElementType.RECTANGLE, x := 50, y := 50,
    width := some 0, height := some 0 }

/-- A state mid-CREATING for `demoRect`, anchored at canvas (50,50),
scale 1. -/
def demoCreateState : EditorState :=
  { elements := [demoRect], tool := Tool.RECT, activeColor := "#000000",
    scale := 1, selectedIds := ∅, slashMenu := none, selectionBox := none,
    interaction := { startX := 50, startY := 50, currentId := some "r1",
                     mode := InteractionMode.CREATING } }

/-- Element A of the group-move demo. -/
def demoElA : CanvasElement :=
  { id := "a", type := ElementType.RECTANGLE, x := 10, y := 10,
    width := some 30, height := some 30 }

/-- Element B of the group-move demo. -/
def demoElB : CanvasElement :=
  { id := "b", type := ElementType.RECTANGLE, x := 100, y := 40,
    width := some 30, height := some 30 }

/-- A state mid-MOVING with both demo elements snapshotted and the
session anchored at screen (0,0), scale 1. -/
def demoMoveState : EditorState :=
  { elements := [demoElA, demoElB], tool := Tool.SELECT,
    activeColor := "#000000", scale := 1, selectedIds := {"a", "b"},
    slashMenu := none, selectionBox := none,
    interaction := { startX := 0, startY := 0, currentId := some "a",
                     mode := InteractionMode.MOVING,
                     initialPositions := [("a", ⟨10, 10⟩), ("b", ⟨100, 40⟩)] } }

/-- An element inside the demo selection rectangle. -/
def demoBoxEl : CanvasElement :=
  { id := "e1", type := ElementType.RECTANGLE, x := 5, y := 5,
    width := some 10, height := some 10 }

/-- A state mid-BOX_SELECT over `demoBoxEl` with a pre-existing
selection. -/
def demoBoxState : EditorState :=
  { elements := [demoBoxEl], tool := Tool.SELECT, activeColor := "#000000",
    scale := 1, selectedIds := {"keep"}, slashMenu := none,
    selectionBox := some ⟨0, 0, 100, 100⟩,
    interaction := { mode := InteractionMode.BOX_SELECT } }

/-- An idle state with the CODE tool active, for the click-to-place
demo. -/
def demoPlaceState : EditorState :=
  { elements := [], tool := Tool.CODE, activeColor := "#000000", scale := 1,
    selectedIds := ∅, slashMenu := none, selectionBox := none,
    interaction := {} }

/-- A rectangle whose width and height are 0, invisible to the eraser. -/
def demoZeroRect : CanvasElement :=
  { id := "z", type := ElementType.RECTANGLE, x := 0, y := 0,
    width := some 0, height := some 0 }

/-- A text element with no explicit size, hit through the 300 by 50
fallback box. -/
def demoText : CanvasElement :=
  { id := "t", type := ElementType.TEXT, x := 0, y := 0, content := some "" }

/-- A state mid-ERASING over a zero-size rectangle and a text element. -/
def demoEraseState : EditorState :=
  { elements := [demoZeroRect, demoText], tool := Tool.ERASER,
    activeColor := "#000000", scale := 1, selectedIds := ∅,
    slashMenu := none, selectionBox := none,
    interaction := { mode := InteractionMode.ERASING } }

/-- A state in the middle of a box-select drag, used to exercise the
Escape handler. -/
def escapeDemoState : EditorState :=
  { elements := [],
    tool := Tool.RECT,
    activeColor := "#000000",
    scale := 1,
    selectedIds := ∅,
    slashMenu := none,
    selectionBox := some ⟨0, 0, 5, 5⟩,
    interaction := { mode := InteractionMode.BOX_SELECT, startX := 0, startY := 0 } }

/-- A one-element state with that element selected, for the delete
witness. -/
def deleteDemoState : EditorState :=
  { elements := [{ id := "a", type := ElementType.RECTANGLE, x := 0, y := 0,
                   width := some 40, height := some 40 }],
    tool := Tool.SELECT,
    activeColor := "#000000",
    scale := 1,
    selectedIds := {"a"},
    slashMenu := none,
    selectionBox := none,
    interaction := {} }

/-! ## Theorems -/

/-- C9: For every pointer event and every scale in the configured zoom
range ([0.1, 3]), the screen-to-canvas conversion computes
`canvasX = (screenX - containerOrigin.x) / scale` and
`canvasY = (screenY - containerOrigin.y) / scale`; the code's
`getMousePos` agrees with the spec's `toCanvas` contract. -/
theorem getMousePos_matches_toCanvas (clientX clientY rectLeft rectTop scale : ℚ)
    (hlo : 1 / 10 ≤ scale) (hhi : scale ≤ 3) :
    getMousePos clientX clientY rectLeft rectTop scale =
      toCanvasSpec clientX clientY rectLeft rectTop scale ∧
    (getMousePos clientX clientY rectLeft rectTop scale).x =
      (clientX - rectLeft) / scale ∧
    (getMousePos clientX clientY rectLeft rectTop scale).y =
      (clientY - rectTop) / scale :=
  ⟨rfl, rfl, rfl⟩

theorem getMousePos_matches_toCanvas_witness :
    getMousePos 7 8 1 2 1 = toCanvasSpec 7 8 1 2 1 ∧
    (getMousePos 7 8 1 2 1).x = (7 - 1) / 1 ∧
    (getMousePos 7 8 1 2 1).y = (8 - 2) / 1 :=
  getMousePos_matches_toCanvas 7 8 1 2 1 (by norm_num) (by norm_num)

/-- C4 counterexample: pressing Escape during a box-select drag does NOT
force the interaction session mode to IDLE — the Escape branch of
`handleKeyDown` touches only the tool, the selection and the slash menu. -/
theorem escape_mode_counterexample :
    ¬ (handleKeyDownEscape escapeDemoState).interaction.mode = InteractionMode.IDLE := by
  decide

/-- C4 (amended): pressing Escape clears the selection set, switches the
tool to SELECT and dismisses any open command menu, but leaves the
interaction session (its mode included), the elements and the selection
box untouched. -/
theorem escape_effects_amended (st : EditorState) :
    (handleKeyDownEscape st).tool = Tool.SELECT ∧
    (handleKeyDownEscape st).selectedIds = ∅ ∧
    (handleKeyDownEscape st).slashMenu = none ∧
    (handleKeyDownEscape st).interaction = st.interaction ∧
    (handleKeyDownEscape st).elements = st.elements ∧
    (handleKeyDownEscape st).selectionBox = st.selectionBox :=
  ⟨rfl, rfl, rfl, rfl, rfl, rfl⟩

/-- Characterization of the resulting width of `resizeBounds` by the
handle's letters. -/
theorem resizeBounds_width (h : List Char) (b : Bounds) (dx dy minH : ℚ) :
    (resizeBounds h b dx dy minH).width =
      if 'w' ∈ h then b.width - min dx (b.width - 20)
      else if 'e' ∈ h then max 20 (b.width + dx)
      else b.width := by
  by_cases he : 'e' ∈ h <;> by_cases hw : 'w' ∈ h <;>
    simp [resizeBounds, he, hw]

/-- Characterization of the resulting x of `resizeBounds`. -/
theorem resizeBounds_x (h : List Char) (b : Bounds) (dx dy minH : ℚ) :
    (resizeBounds h b dx dy minH).x =
      if 'w' ∈ h then b.x + min dx (b.width - 20) else b.x := by
  by_cases he : 'e' ∈ h <;> by_cases hw : 'w' ∈ h <;>
    simp [resizeBounds, he, hw]

/-- Characterization of the resulting height of `resizeBounds`. -/
theorem resizeBounds_height (h : List Char) (b : Bounds) (dx dy minH : ℚ) :
    (resizeBounds h b dx dy minH).height =
      if 'n' ∈ h then b.height - min dy (b.height - minH)
      else if 's' ∈ h then max minH (b.height + dy)
      else b.height := by
  by_cases hs : 's' ∈ h <;> by_cases hn : 'n' ∈ h <;>
    simp [resizeBounds, hs, hn]

/-- Characterization of the resulting y of `resizeBounds`. -/
theorem resizeBounds_y (h : List Char) (b : Bounds) (dx dy minH : ℚ) :
    (resizeBounds h b dx dy minH).y =
      if 'n' ∈ h then b.y + min dy (b.height - minH) else b.y := by
  by_cases hs : 's' ∈ h <;> by_cases hn : 'n' ∈ h <;>
    simp [resizeBounds, hs, hn]

/-- C2: a resize step leaves every axis not addressed by the handle's
letters pixel-identical to the initial bounds; in particular handle "e"
never changes `x`, `y` or `height`. -/
theorem resize_anchor_preservation (h : List Char) (b : Bounds) (dx dy minH : ℚ) :
    (('e' ∉ h ∧ 'w' ∉ h) →
      (resizeBounds h b dx dy minH).x = b.x ∧
      (resizeBounds h b dx dy minH).width = b.width) ∧
    (('n' ∉ h ∧ 's' ∉ h) →
      (resizeBounds h b dx dy minH).y = b.y ∧
      (resizeBounds h b dx dy minH).height = b.height) ∧
    ((resizeBounds ['e'] b dx dy minH).x = b.x ∧
     (resizeBounds ['e'] b dx dy minH).y = b.y ∧
     (resizeBounds ['e'] b dx dy minH).height = b.height) := by
  have hwE : 'w' ∉ (['e'] : List Char) := by decide
  have hnE : 'n' ∉ (['e'] : List Char) := by decide
  have hsE : 's' ∉ (['e'] : List Char) := by decide
  refine ⟨?_, ?_, ?_⟩
  · rintro ⟨he, hw⟩
    exact ⟨by rw [resizeBounds_x, if_neg hw],
           by rw [resizeBounds_width, if_neg hw, if_neg he]⟩
  · rintro ⟨hn, hs⟩
    exact ⟨by rw [resizeBounds_y, if_neg hn],
           by rw [resizeBounds_height, if_neg hn, if_neg hs]⟩
  · exact ⟨by rw [resizeBounds_x, if_neg hwE],
           by rw [resizeBounds_y, if_neg hnE],
           by rw [resizeBounds_height, if_neg hnE, if_neg hsE]⟩

theorem resize_anchor_preservation_witness :
    (resizeBounds ['e'] ⟨3, 4, 50, 60⟩ 7 9 20).x = 3 ∧
    (resizeBounds ['e'] ⟨3, 4, 50, 60⟩ 7 9 20).y = 4 ∧
    (resizeBounds ['e'] ⟨3, 4, 50, 60⟩ 7 9 20).height = 60 :=
  (resize_anchor_preservation ['e'] ⟨3, 4, 50, 60⟩ 7 9 20).2.2

/-- C3 counterexample: a resize step with handle "s" on initial bounds of
width 0 (a freshly created shape) yields width 0 < 20 = minWidth, so the
claim "every resize step yields width ≥ minWidth and height ≥ minHeight"
fails as stated: an axis the handle does not address is left at its
initial extent, below the minimum or not. -/
theorem resize_min_size_counterexample :
    ¬ (20 ≤ (resizeBounds ['s'] ⟨0, 0, 0, 100⟩ 0 0 20).width ∧
       20 ≤ (resizeBounds ['s'] ⟨0, 0, 0, 100⟩ 0 0 20).height) := by
  rintro ⟨h1, h2⟩
  rw [resizeBounds_width, if_neg (by decide : 'w' ∉ (['s'] : List Char)),
    if_neg (by decide : 'e' ∉ (['s'] : List Char))] at h1
  norm_num at h1

/-- C3 (amended): a resize step clamps every axis the handle addresses:
if the handle contains 'e' or 'w' the resulting width is ≥ 20, and if it
contains 'n' or 's' the resulting height is ≥ minH; an axis the handle
does not address keeps its initial extent, so its minimum holds exactly
when the initial bounds already satisfied it.  For TEXT elements with a
live content node, minH is the content's scrollHeight plus 16 (padding);
otherwise minH is the 20-unit default. -/
theorem resize_min_size_amended (h : List Char) (b : Bounds) (dx dy minH : ℚ) :
    (('e' ∈ h ∨ 'w' ∈ h) → 20 ≤ (resizeBounds h b dx dy minH).width) ∧
    (20 ≤ b.width → 20 ≤ (resizeBounds h b dx dy minH).width) ∧
    (('n' ∈ h ∨ 's' ∈ h) → minH ≤ (resizeBounds h b dx dy minH).height) ∧
    (minH ≤ b.height → minH ≤ (resizeBounds h b dx dy minH).height) ∧
    (∀ (el : CanvasElement) (sh : ℚ), el.type = ElementType.TEXT →
      computeMinH el (some sh) = sh + 16) ∧
    (∀ (el : CanvasElement) (o : Option ℚ), el.type ≠ ElementType.TEXT →
      computeMinH el o = 20) := by
  have hminW := min_le_right dx (b.width - 20)
  have hminH := min_le_right dy (b.height - minH)
  refine ⟨?_, ?_, ?_, ?_, ?_, ?_⟩
  · intro hor
    rw [resizeBounds_width]
    by_cases hw : 'w' ∈ h
    · rw [if_pos hw]
      linarith
    · have he : 'e' ∈ h := hor.resolve_right hw
      rw [if_neg hw, if_pos he]
      exact le_max_left _ _
  · intro hb
    rw [resizeBounds_width]
    by_cases hw : 'w' ∈ h
    · rw [if_pos hw]
      linarith
    · by_cases he : 'e' ∈ h
      · rw [if_neg hw, if_pos he]
        exact le_max_left _ _
      · rw [if_neg hw, if_neg he]
        exact hb
  · intro hor
    rw [resizeBounds_height]
    by_cases hn : 'n' ∈ h
    · rw [if_pos hn]
      linarith
    · have hs : 's' ∈ h := hor.resolve_left hn
      rw [if_neg hn, if_pos hs]
      exact le_max_left _ _
  · intro hb
    rw [resizeBounds_height]
    by_cases hn : 'n' ∈ h
    · rw [if_pos hn]
      linarith
    · by_cases hs : 's' ∈ h
      · rw [if_neg hn, if_pos hs]
        exact le_max_left _ _
      · rw [if_neg hn, if_neg hs]
        exact hb
  · intro el sh ht
    simp [computeMinH, ht]
  · intro el o ht
    simp [computeMinH, ht]

theorem resize_min_size_amended_witness :
    20 ≤ (resizeBounds ['s', 'e'] ⟨0, 0, 100, 100⟩ (-500) (-500) 20).width ∧
    20 ≤ (resizeBounds ['s', 'e'] ⟨0, 0, 100, 100⟩ (-500) (-500) 20).height :=
  ⟨(resize_min_size_amended ['s', 'e'] ⟨0, 0, 100, 100⟩ (-500) (-500) 20).1
      (Or.inl (by decide)),
   (resize_min_size_amended ['s', 'e'] ⟨0, 0, 100, 100⟩ (-500) (-500) 20).2.2.1
      (Or.inr (by decide))⟩

/-- C7: deleting an element by id removes it from the element collection
and erases the id from the selection in the same operation; the
selection-refers-to-live-elements invariant is preserved; a repeated
delete is a no-op, and deleting an id not present in the collection
changes nothing. -/
theorem delete_element_atomic (st : EditorState) (id : String)
    (hinv : ∀ a ∈ st.selectedIds, ∃ el ∈ st.elements, el.id = a) :
    (∀ el ∈ (deleteElement id st).elements, el.id ≠ id) ∧
    id ∉ (deleteElement id st).selectedIds ∧
    (∀ a ∈ (deleteElement id st).selectedIds,
      ∃ el ∈ (deleteElement id st).elements, el.id = a) ∧
    deleteElement id (deleteElement id st) = deleteElement id st ∧
    ((∀ el ∈ st.elements, el.id ≠ id) → deleteElement id st = st) := by
  refine ⟨?_, ?_, ?_, ?_, ?_⟩
  · intro el hel
    simp only [deleteElement, List.mem_filter, decide_eq_true_eq] at hel
    exact hel.2
  · exact Finset.not_mem_erase id st.selectedIds
  · intro a ha
    simp only [deleteElement, Finset.mem_erase] at ha
    obtain ⟨hne, hmem⟩ := ha
    obtain ⟨el, hel, hid⟩ := hinv a hmem
    refine ⟨el, ?_, hid⟩
    simp only [deleteElement, List.mem_filter, decide_eq_true_eq]
    exact ⟨hel, by rw [hid]; exact hne⟩
  · cases st
    simp [deleteElement, List.filter_filter, Finset.erase_idem]
  · intro hnone
    have hidsel : id ∉ st.selectedIds := by
      intro hmem
      obtain ⟨el, hel, hid⟩ := hinv id hmem
      exact hnone el hel hid
    cases st with
    | mk elements tool activeColor scale selectedIds slashMenu selectionBox interaction =>
      simp only [deleteElement, EditorState.mk.injEq, and_true, true_and]
      constructor
      · exact List.filter_eq_self.mpr fun el hel => decide_eq_true (hnone el hel)
      · exact Finset.erase_eq_of_not_mem hidsel

theorem delete_element_atomic_witness :
    deleteElement "b" deleteDemoState = deleteDemoState ∧
    "a" ∉ (deleteElement "a" deleteDemoState).selectedIds :=
  ⟨(delete_element_atomic deleteDemoState "b" (by decide)).2.2.2.2 (by decide),
   (delete_element_atomic deleteDemoState "a" (by decide)).2.1⟩

/-- C1: during a CREATING drag of a RECT or CIRCLE element, each
pointer-move recomputes the element from the session anchor alone:
`width = |px - sx|`, `height = |py - sy|`, `x = min px sx`,
`y = min py sy`, so both extents are nonnegative regardless of drag
direction, and the updated element is what the handler stores. -/
theorem creating_drag_rect_geometry (st : EditorState)
    (rectLeft rectTop clientX clientY : ℚ) (el : CanvasElement)
    (hmode : st.interaction.mode = InteractionMode.CREATING)
    (hel : el ∈ st.elements)
    (hid : some el.id = st.interaction.currentId)
    (htype : el.type = ElementType.RECTANGLE ∨ el.type = ElementType.CIRCLE) :
    creatingUpdate st.interaction.startX st.interaction.startY
        ((clientX - rectLeft) / st.scale) ((clientY - rectTop) / st.scale) el ∈
      (handleContainerPointerMove rectLeft rectTop clientX clientY st).elements ∧
    (∀ sx sy px py : ℚ,
      (creatingUpdate sx sy px py el).width = some |px - sx| ∧
      (creatingUpdate sx sy px py el).height = some |py - sy| ∧
      (creatingUpdate sx sy px py el).x = min px sx ∧
      (creatingUpdate sx sy px py el).y = min py sy ∧
      (0 : ℚ) ≤ |px - sx| ∧ (0 : ℚ) ≤ |py - sy|) := by
  have hne : el.type ≠ ElementType.PATH := by
    rcases htype with h | h <;> rw [h] <;> exact fun hcontra => by cases hcontra
  constructor
  · simp only [handleContainerPointerMove, hmode]
    refine List.mem_map.mpr ⟨el, hel, ?_⟩
    rw [if_pos hid]
    rfl
  · intro sx sy px py
    unfold creatingUpdate
    rw [if_neg hne]
    refine ⟨rfl, rfl, ?_, ?_, abs_nonneg _, abs_nonneg _⟩
    · show (if px - sx < 0 then px else sx) = min px sx
      split_ifs with hlt
      · exact (min_eq_left (by linarith)).symm
      · exact (min_eq_right (by linarith)).symm
    · show (if py - sy < 0 then py else sy) = min py sy
      split_ifs with hlt
      · exact (min_eq_left (by linarith)).symm
      · exact (min_eq_right (by linarith)).symm

theorem creating_drag_rect_geometry_witness :
    creatingUpdate demoCreateState.interaction.startX
        demoCreateState.interaction.startY ((150 - 0) / demoCreateState.scale)
        ((120 - 0) / demoCreateState.scale) demoRect ∈
      (handleContainerPointerMove 0 0 150 120 demoCreateState).elements ∧
    (creatingUpdate 50 50 150 120 demoRect).x = 50 ∧
    (creatingUpdate 50 50 150 120 demoRect).y = 50 ∧
    (creatingUpdate 50 50 150 120 demoRect).width = some 100 ∧
    (creatingUpdate 50 50 150 120 demoRect).height = some 70 := by
  have hne2 : ¬ (ElementType.RECTANGLE = ElementType.PATH) := by decide
  refine ⟨(creating_drag_rect_geometry demoCreateState 0 0 150 120 demoRect rfl
      (by simp [demoCreateState]) rfl (Or.inl rfl)).1, ?_, ?_, ?_, ?_⟩ <;>
    norm_num [creatingUpdate, demoRect, abs_of_nonneg, hne2]

/-- Membership after folding selection inserts over a list of box-select
hits (`hits.forEach(h => next.add(h.id))`). -/
theorem mem_foldl_insert (l : List CanvasElement) (s : Finset String) (a : String) :
    (a ∈ l.foldl (fun acc el => insert el.id acc) s) ↔
      a ∈ s ∨ ∃ el ∈ l, el.id = a := by
  induction l generalizing s with
  | nil => simp
  | cons b t ih =>
    simp only [List.foldl_cons, ih, Finset.mem_insert, List.mem_cons]
    constructor
    · rintro ((rfl | hs) | ⟨el, hel, rfl⟩)
      · exact Or.inr ⟨b, Or.inl rfl, rfl⟩
      · exact Or.inl hs
      · exact Or.inr ⟨el, Or.inr hel, rfl⟩
    · rintro (hs | ⟨el, (rfl | hel), rfl⟩)
      · exact Or.inl (Or.inr hs)
      · exact Or.inl (Or.inl rfl)
      · exact Or.inr ⟨el, hel, rfl⟩

/-- C5: box-select resolution at pointer-up selects exactly the elements
whose (10-fallback) bounding box passes the open-interval intersection
with the selection rectangle, unioning their ids into the existing
selection; pointer-down on the background with SELECT clears the
selection only when shift is not held; missing or zero sizes fall back
to 10. -/
theorem box_select_resolution (st : EditorState) (sb : Bounds)
    (hmode : st.interaction.mode = InteractionMode.BOX_SELECT)
    (hbox : st.selectionBox = some sb) :
    (∀ a : String,
        a ∈ (handleContainerPointerUp st).selectedIds ↔
          a ∈ st.selectedIds ∨
            ∃ el ∈ st.elements, el.id = a ∧ boxHit sb el = true) ∧
    st.selectedIds ⊆ (handleContainerPointerUp st).selectedIds ∧
    (∀ (st2 : EditorState) (button : ℕ) (shiftKey : Bool)
        (rectLeft rectTop clientX clientY : ℚ) (newId : String),
        st2.tool = Tool.SELECT →
        (handleContainerPointerDown button true false shiftKey rectLeft rectTop
            clientX clientY newId st2).selectedIds =
          if shiftKey then st2.selectedIds else ∅) ∧
    (∀ o : Option ℚ, o = none ∨ o = some 0 → boxSelectFallback o = 10) := by
  have hsel : (handleContainerPointerUp st).selectedIds =
      (st.elements.filter (fun el => boxHit sb el)).foldl
        (fun acc el => insert el.id acc) st.selectedIds := by
    simp [handleContainerPointerUp, hmode, hbox]
  have hmem : ∀ a : String,
      a ∈ (handleContainerPointerUp st).selectedIds ↔
        a ∈ st.selectedIds ∨
          ∃ el ∈ st.elements, el.id = a ∧ boxHit sb el = true := by
    intro a
    rw [hsel, mem_foldl_insert]
    constructor
    · rintro (hs | ⟨el, hel, rfl⟩)
      · exact Or.inl hs
      · rw [List.mem_filter] at hel
        exact Or.inr ⟨el, hel.1, rfl, hel.2⟩
    · rintro (hs | ⟨el, hel, rfl, hhit⟩)
      · exact Or.inl hs
      · exact Or.inr ⟨el, List.mem_filter.mpr ⟨hel, hhit⟩, rfl⟩
  refine ⟨hmem, ?_, ?_, ?_⟩
  · intro a ha
    exact (hmem a).mpr (Or.inl ha)
  · intro st2 button shiftKey rectLeft rectTop clientX clientY newId htool
    simp [handleContainerPointerDown, htool]
  · rintro o (rfl | rfl) <;> rfl

theorem box_select_resolution_witness :
    demoBoxState.selectedIds ⊆ (handleContainerPointerUp demoBoxState).selectedIds ∧
    "e1" ∈ (handleContainerPointerUp demoBoxState).selectedIds := by
  have h := box_select_resolution demoBoxState ⟨0, 0, 100, 100⟩ rfl rfl
  refine ⟨h.2.1, (h.1 "e1").mpr (Or.inr ⟨demoBoxEl, by simp [demoBoxState], rfl, ?_⟩)⟩
  norm_num [boxHit, boxSelectFallback, demoBoxEl]

/-- C6: each pointer-move while MOVING sets, for every id in the
initial-positions snapshot, the element's position to snapshot origin
plus the one delta of this move event; the delta is computed from the
session anchor (not accumulated), is the same for every snapshotted
element, and equals canvas-space pointer minus canvas-space anchor for
any container origin. -/
theorem moving_uniform_delta (st : EditorState)
    (contentScrollHeight : String → Option ℚ) (clientX clientY : ℚ)
    (hmode : st.interaction.mode = InteractionMode.MOVING) :
    ((handleGlobalMove contentScrollHeight clientX clientY st).elements =
      st.elements.map fun el =>
        match st.interaction.initialPositions.lookup el.id with
        | some init =>
          { el with
            x := init.x + (clientX - st.interaction.startX) / st.scale,
            y := init.y + (clientY - st.interaction.startY) / st.scale }
        | none => el) ∧
    (∀ el ∈ st.elements, ∀ init : Point,
        st.interaction.initialPositions.lookup el.id = some init →
        { el with
          x := init.x + (clientX - st.interaction.startX) / st.scale,
          y := init.y + (clientY - st.interaction.startY) / st.scale } ∈
          (handleGlobalMove contentScrollHeight clientX clientY st).elements) ∧
    (∀ originX originY : ℚ,
        (clientX - st.interaction.startX) / st.scale =
          (getMousePos clientX clientY originX originY st.scale).x -
            (getMousePos st.interaction.startX st.interaction.startY
              originX originY st.scale).x ∧
        (clientY - st.interaction.startY) / st.scale =
          (getMousePos clientX clientY originX originY st.scale).y -
            (getMousePos st.interaction.startX st.interaction.startY
              originX originY st.scale).y) := by
  have helems : (handleGlobalMove contentScrollHeight clientX clientY st).elements =
      st.elements.map fun el =>
        match st.interaction.initialPositions.lookup el.id with
        | some init =>
          { el with
            x := init.x + (clientX - st.interaction.startX) / st.scale,
            y := init.y + (clientY - st.interaction.startY) / st.scale }
        | none => el := by
    simp [handleGlobalMove, hmode]
  refine ⟨helems, ?_, ?_⟩
  · intro el hel init hlook
    rw [helems]
    refine List.mem_map.mpr ⟨el, hel, ?_⟩
    rw [hlook]
  · intro originX originY
    constructor <;>
      · simp only [getMousePos]
        rw [div_sub_div_same]
        ring_nf

theorem moving_uniform_delta_witness :
    (handleGlobalMove (fun _ => none) 30 (-5) demoMoveState).elements =
      [{ demoElA with x := 40, y := 5 }, { demoElB with x := 130, y := 35 }] :=
by
  have ha : demoMoveState.interaction.initialPositions.lookup demoElA.id =
      some ⟨10, 10⟩ := rfl
  have hb : demoMoveState.interaction.initialPositions.lookup demoElB.id =
      some ⟨100, 40⟩ := rfl
  rw [(moving_uniform_delta demoMoveState (fun _ => none) 30 (-5) rfl).1,
    show demoMoveState.elements = [demoElA, demoElB] from rfl]
  simp only [List.map_cons, List.map_nil, ha, hb]
  norm_num [demoMoveState, CanvasElement.mk.injEq]

/-- Pointer-move on the container is a no-op when the session is IDLE. -/
theorem pointerMove_idle (st : EditorState)
    (hmode : st.interaction.mode = InteractionMode.IDLE) :
    ∀ rectLeft rectTop clientX clientY : ℚ,
      handleContainerPointerMove rectLeft rectTop clientX clientY st = st := by
  intro rectLeft rectTop clientX clientY
  simp [handleContainerPointerMove, hmode]

/-- Window-level pointer-move is a no-op when the session is IDLE. -/
theorem globalMove_idle (st : EditorState) (f : String → Option ℚ)
    (hmode : st.interaction.mode = InteractionMode.IDLE) :
    ∀ clientX clientY : ℚ, handleGlobalMove f clientX clientY st = st := by
  intro clientX clientY
  simp [handleGlobalMove, hmode]

/-- C8: pointer-down with tool TEXT, CODE or EXPANDABLE (primary button,
target not contentEditable) appends exactly one element with its default
size and content at the pointer's canvas position, selects that id, and
leaves the session mode IDLE, so further pointer-moves before pointer-up
change nothing. -/
theorem click_to_place_idle (st : EditorState) (button : ℕ)
    (targetIsBackground : Bool) (rectLeft rectTop clientX clientY : ℚ)
    (newId : String)
    (htool : st.tool = Tool.TEXT ∨ st.tool = Tool.CODE ∨ st.tool = Tool.EXPANDABLE)
    (hbtn : button = 0) (st1 : EditorState)
    (hst1 : st1 = handleContainerPointerDown button targetIsBackground false false
        rectLeft rectTop clientX clientY newId st) :
    ∃ newEl : CanvasElement,
      newEl.id = newId ∧
      newEl.x = (clientX - rectLeft) / st.scale ∧
      newEl.y = (clientY - rectTop) / st.scale ∧
      (st.tool = Tool.TEXT →
        newEl.type = ElementType.TEXT ∧ newEl.content = some "" ∧
        newEl.width = some 400) ∧
      (st.tool = Tool.CODE →
        newEl.type = ElementType.CODE ∧ newEl.content = some "// Code block" ∧
        newEl.width = some 300 ∧ newEl.height = some 150) ∧
      (st.tool = Tool.EXPANDABLE →
        newEl.type = ElementType.EXPANDABLE ∧ newEl.content = some "Toggle Section" ∧
        newEl.width = some 300 ∧ newEl.isExpanded = some true) ∧
      st1.elements = st.elements ++ [newEl] ∧
      st1.selectedIds = {newId} ∧
      st1.interaction.mode = InteractionMode.IDLE ∧
      (∀ rl rt cx cy : ℚ, handleContainerPointerMove rl rt cx cy st1 = st1) ∧
      (∀ (f : String → Option ℚ) (cx cy : ℚ), handleGlobalMove f cx cy st1 = st1) := by
  subst hbtn
  have hmodeIdle : st1.interaction.mode = InteractionMode.IDLE := by
    rcases htool with h | h | h <;>
      · rw [hst1]
        simp [handleContainerPointerDown, h]
  rcases htool with h | h | h
  · refine ⟨{ id := newId, type := ElementType.TEXT,
              x := (clientX - rectLeft) / st.scale,
              y := (clientY - rectTop) / st.scale,
              content := some "", width := some 400 },
      rfl, rfl, rfl, fun _ => ⟨rfl, rfl, rfl⟩,
      fun hc => absurd (h ▸ hc) (by decide),
      fun hc => absurd (h ▸ hc) (by decide), ?_, ?_, hmodeIdle,
      fun rl rt cx cy => pointerMove_idle st1 hmodeIdle rl rt cx cy,
      fun f cx cy => globalMove_idle st1 f hmodeIdle cx cy⟩
    · rw [hst1]
      simp [handleContainerPointerDown, h, getMousePos]
    · rw [hst1]
      simp [handleContainerPointerDown, h]
  · refine ⟨{ id := newId, type := ElementType.CODE,
              x := (clientX - rectLeft) / st.scale,
              y := (clientY - rectTop) / st.scale,
              content := some "// Code block", width := some 300,
              height := some 150 },
      rfl, rfl, rfl,
      fun hc => absurd (h ▸ hc) (by decide),
      fun _ => ⟨rfl, rfl, rfl, rfl⟩,
      fun hc => absurd (h ▸ hc) (by decide), ?_, ?_, hmodeIdle,
      fun rl rt cx cy => pointerMove_idle st1 hmodeIdle rl rt cx cy,
      fun f cx cy => globalMove_idle st1 f hmodeIdle cx cy⟩
    · rw [hst1]
      simp [handleContainerPointerDown, h, getMousePos]
    · rw [hst1]
      simp [handleContainerPointerDown, h]
  · refine ⟨{ id := newId, type := ElementType.EXPANDABLE,
              x := (clientX - rectLeft) / st.scale,
              y := (clientY - rectTop) / st.scale,
              content := some "Toggle Section", isExpanded := some true,
              width := some 300 },
      rfl, rfl, rfl,
      fun hc => absurd (h ▸ hc) (by decide),
      fun hc => absurd (h ▸ hc) (by decide),
      fun _ => ⟨rfl, rfl, rfl, rfl⟩, ?_, ?_, hmodeIdle,
      fun rl rt cx cy => pointerMove_idle st1 hmodeIdle rl rt cx cy,
      fun f cx cy => globalMove_idle st1 f hmodeIdle cx cy⟩
    · rw [hst1]
      simp [handleContainerPointerDown, h, getMousePos]
    · rw [hst1]
      simp [handleContainerPointerDown, h]

theorem click_to_place_idle_witness :
    (handleContainerPointerDown 0 true false false 0 0 30 40 "n1"
        demoPlaceState).selectedIds = {"n1"} ∧
    (handleContainerPointerDown 0 true false false 0 0 30 40 "n1"
        demoPlaceState).interaction.mode = InteractionMode.IDLE := by
  obtain ⟨newEl, -, -, -, -, -, -, -, hsel, hmode, -, -⟩ :=
    click_to_place_idle demoPlaceState 0 true 0 0 30 40 "n1"
      (Or.inr (Or.inl rfl)) rfl
      (handleContainerPointerDown 0 true false false 0 0 30 40 "n1"
        demoPlaceState) rfl
  exact ⟨hsel, hmode⟩

/-- `find?` returning a hit splits the list at the first satisfying
element. -/
theorem find?_decomp {α : Type} (p : α → Bool) :
    ∀ (l : List α) (a : α), l.find? p = some a →
      ∃ pre post, l = pre ++ a :: post ∧ (∀ x ∈ pre, p x = false) ∧ p a = true := by
  intro l
  induction l with
  | nil =>
    intro a h
    exact absurd h (by simp)
  | cons b t ih =>
    intro a h
    cases hb : p b with
    | true =>
      rw [List.find?_cons_of_pos _ hb] at h
      obtain rfl := Option.some.inj h
      exact ⟨[], t, rfl, by simp, hb⟩
    | false =>
      rw [List.find?_cons_of_neg _ (by simp [hb])] at h
      obtain ⟨pre, post, hdec, hpre, hpa⟩ := ih a h
      refine ⟨b :: pre, post, by rw [hdec, List.cons_append], ?_, hpa⟩
      intro x hx
      rcases List.mem_cons.mp hx with rfl | hx
      · exact hb
      · exact hpre x hx

/-- A rectangle with a missing or zero width or height has no eraser hit
region. -/
theorem eraserHit_degenerate_rect (x y : ℚ) (el : CanvasElement)
    (ht : el.type = ElementType.RECTANGLE)
    (hd : el.width = none ∨ el.width = some 0 ∨
          el.height = none ∨ el.height = some 0) :
    eraserHit x y el = false := by
  rcases hd with h | h | h | h <;> simp [eraserHit, truthy, h, ht]

/-- C10: while ERASING, each pointer-move deletes at most one element:
the first element in insertion order whose eraser hit region contains
the converted pointer; every other element survives, and a rectangle
with missing or zero width/height is never hit, hence never deleted. -/
theorem erasing_single_bottom_hit (st : EditorState)
    (rectLeft rectTop clientX clientY px py : ℚ)
    (hmode : st.interaction.mode = InteractionMode.ERASING)
    (hnodup : (st.elements.map CanvasElement.id).Nodup)
    (hpx : px = (clientX - rectLeft) / st.scale)
    (hpy : py = (clientY - rectTop) / st.scale) :
    (st.elements.find? (fun el => eraserHit px py el) = none →
      handleContainerPointerMove rectLeft rectTop clientX clientY st = st) ∧
    (∀ hit : CanvasElement,
      st.elements.find? (fun el => eraserHit px py el) = some hit →
      eraserHit px py hit = true ∧
      (∃ pre post, st.elements = pre ++ hit :: post ∧
        ∀ x ∈ pre, eraserHit px py x = false) ∧
      (handleContainerPointerMove rectLeft rectTop clientX clientY st).elements =
        st.elements.filter (fun el => el.id ≠ hit.id) ∧
      hit ∉ (handleContainerPointerMove rectLeft rectTop clientX clientY st).elements ∧
      (∀ el ∈ st.elements, el ≠ hit →
        el ∈ (handleContainerPointerMove rectLeft rectTop clientX clientY st).elements) ∧
      st.elements.length =
        (handleContainerPointerMove rectLeft rectTop clientX clientY
          st).elements.length + 1) ∧
    (∀ el ∈ st.elements, el.type = ElementType.RECTANGLE →
      (el.width = none ∨ el.width = some 0 ∨
        el.height = none ∨ el.height = some 0) →
      eraserHit px py el = false ∧
      el ∈ (handleContainerPointerMove rectLeft rectTop clientX clientY
        st).elements) := by
  have hstep : handleContainerPointerMove rectLeft rectTop clientX clientY st =
      (match st.elements.find? (fun el => eraserHit px py el) with
       | some hit => deleteElement hit.id st
       | none => st) := by
    subst hpx
    subst hpy
    simp [handleContainerPointerMove, hmode, getMousePos]
  have hinj : ∀ x ∈ st.elements, ∀ y ∈ st.elements, x.id = y.id → x = y :=
    fun x hx y hy hxy => List.inj_on_of_nodup_map hnodup hx hy hxy
  refine ⟨?_, ?_, ?_⟩
  · intro hnone
    rw [hstep, hnone]
  · intro hit hfind
    have hhit : eraserHit px py hit = true := List.find?_some hfind
    have hmem : hit ∈ st.elements := List.mem_of_find?_eq_some hfind
    obtain ⟨pre, post, hdec, hpre, -⟩ := find?_decomp _ _ _ hfind
    have helems : (handleContainerPointerMove rectLeft rectTop clientX
        clientY st).elements = st.elements.filter (fun el => el.id ≠ hit.id) := by
      rw [hstep, hfind]
      rfl
    have hnodup2 := hnodup
    rw [hdec, List.map_append, List.map_cons] at hnodup2
    have happ := List.nodup_append.mp hnodup2
    have hhitpost : hit.id ∉ post.map CanvasElement.id :=
      (List.nodup_cons.mp happ.2.1).1
    have hprene : ∀ x ∈ pre, x.id ≠ hit.id := by
      intro x hx hcontra
      exact happ.2.2 (List.mem_map_of_mem _ hx)
        (by rw [hcontra]; exact List.mem_cons_self _ _)
    have hpostne : ∀ x ∈ post, x.id ≠ hit.id := by
      intro x hx hcontra
      exact hhitpost (by rw [← hcontra]; exact List.mem_map_of_mem _ hx)
    have hfiltereq : (pre ++ hit :: post).filter (fun el => el.id ≠ hit.id) =
        pre ++ post := by
      rw [List.filter_append, List.filter_cons]
      have hhitid : (decide (hit.id ≠ hit.id)) = false := by simp
      rw [hhitid]
      simp only [Bool.false_eq_true, if_false]
      congr 1
      · exact List.filter_eq_self.mpr fun x hx => decide_eq_true (hprene x hx)
      · exact List.filter_eq_self.mpr fun x hx => decide_eq_true (hpostne x hx)
    refine ⟨hhit, ⟨pre, post, hdec, hpre⟩, helems, ?_, ?_, ?_⟩
    · rw [helems]
      intro hcontra
      rw [List.mem_filter] at hcontra
      have h2 : hit.id ≠ hit.id := by simpa using hcontra.2
      exact h2 rfl
    · intro el hel hne
      rw [helems, List.mem_filter]
      refine ⟨hel, ?_⟩
      have : el.id ≠ hit.id := fun hid => hne (hinj el hel hit hmem hid)
      simpa using this
    · rw [helems, hdec, hfiltereq]
      simp [List.length_append]
      omega
  · intro el hel ht hd
    have hfalse := eraserHit_degenerate_rect px py el ht hd
    refine ⟨hfalse, ?_⟩
    cases hfind : st.elements.find? (fun el => eraserHit px py el) with
    | none =>
      rw [hstep, hfind]
      exact hel
    | some hit =>
      have hhit : eraserHit px py hit = true := List.find?_some hfind
      have hmemhit : hit ∈ st.elements := List.mem_of_find?_eq_some hfind
      rw [hstep, hfind]
      simp only [deleteElement, List.mem_filter]
      refine ⟨hel, ?_⟩
      have hne : el ≠ hit := by
        intro he
        rw [he, hhit] at hfalse
        exact Bool.noConfusion hfalse
      have : el.id ≠ hit.id := fun hid => hne (hinj el hel hit hmemhit hid)
      simpa using this

theorem erasing_single_bottom_hit_witness :
    (handleContainerPointerMove 0 0 10 10 demoEraseState).elements =
      demoEraseState.elements.filter (fun el => el.id ≠ demoText.id) ∧
    demoZeroRect ∈ (handleContainerPointerMove 0 0 10 10 demoEraseState).elements := by
  have hzr : ¬ (ElementType.RECTANGLE = ElementType.PATH) := by decide
  have hzt : ¬ (ElementType.RECTANGLE = ElementType.TEXT) := by decide
  have htp : ¬ (ElementType.TEXT = ElementType.PATH) := by decide
  have hz : eraserHit 10 10 demoZeroRect = false := by
    norm_num [eraserHit, truthy, demoZeroRect, hzr, hzt]
  have htx : eraserHit 10 10 demoText = true := by
    norm_num [eraserHit, truthy, demoText, htp]
  have hfind : demoEraseState.elements.find? (fun el => eraserHit 10 10 el) =
      some demoText := by
    show ([demoZeroRect, demoText].find? fun el => eraserHit 10 10 el) = some demoText
    rw [List.find?_cons_of_neg _ (by simp [hz]), List.find?_cons_of_pos _ htx]
  have h := erasing_single_bottom_hit demoEraseState 0 0 10 10 10 10
    rfl (by decide) (by norm_num [demoEraseState]) (by norm_num [demoEraseState])
  obtain ⟨-, -, helems, -, -, -⟩ := h.2.1 demoText hfind
  exact ⟨helems,
    (h.2.2 demoZeroRect (by simp [demoEraseState]) rfl (Or.inr (Or.inl rfl))).2⟩

end DocEditor
